import Mathlib

/-!
Verification of the core of `src/bot.py` (the "Picl" community-chat agent):
the inactivity enforcement predicate and kick loop (`_run_inactivity_check`),
the DM relay (`on_message`), and the per-command log capture
(`_end_command_log`, `_chunk`).

Strings are modelled as `List Char`, POSIX timestamps as `Int` seconds,
Python dicts as functions `Nat → Option _`, and the active-sender set as a
`Finset Nat`.  Network calls are modelled by passing their outcomes as
explicit data (`Option`-valued results).
-/

namespace Picl

/-- A guild member as consumed by `_run_inactivity_check`: identifier,
bot flag, optional join timestamp (`member.joined_at`, seconds). -/
structure Member where
  id : Nat
  bot : Bool
  joined_at : Option Int
deriving DecidableEq, Repr

/-- The cutoff `threshold = now.timestamp() - (INACTIVE_KICK_DAYS * 86400)`
from `_run_inactivity_check`. -/
def kickThreshold (now days : Int) : Int :=
  now - days * 86400

/-- The per-member selection predicate of `_run_inactivity_check`:
skip bots, skip members in `_active_senders`, skip members with no
`joined_at`, and otherwise select when `joined_at.timestamp() <= threshold`. -/
def isKickCandidate (active : Finset Nat) (now days : Int) (m : Member) : Bool :=
  if m.bot then false
  else if m.id ∈ active then false
  else
    match m.joined_at with
    | none => false
    | some j => decide (j ≤ kickThreshold now days)

/-- The candidate list `to_kick` built by `_run_inactivity_check` from the
guild member roster. -/
def toKick (active : Finset Nat) (now days : Int) (members : List Member) : List Member :=
  members.filter (isKickCandidate active now days)

/-- The generator `_chunk(text, size=1900)`: consecutive slices
`text[i : i + size]` for `i = 0, size, 2*size, ...`. -/
def chunk (size : Nat) : List Char → List (List Char)
  | [] => []
  | c :: rest => (c :: rest.take (size - 1)) :: chunk size (rest.drop (size - 1))
termination_by l => l.length
decreasing_by
  simp only [List.length_drop, List.length_cons]
  omega

/-- Newline join of the captured buffer, as `_end_command_log` computes it. -/
def joinWithNewlines : List (List Char) → List Char
  | [] => []
  | [l] => l
  | l :: rest => l ++ '\n' :: joinWithNewlines rest

/-- The tail truncation in `_end_command_log`:
`if len(joined) > 8000: joined = joined[-8000:]`. -/
def endTruncate (joined : List Char) : List Char :=
  if joined.length > 8000 then joined.drop (joined.length - 8000) else joined

/-- The teardown `_end_command_log(token, message)` restricted to its effect
on `_logs_by_message`: when a response message exists and the captured buffer is
truthy (non-empty), store the joined, tail-truncated text under the message
id; otherwise leave the map unchanged. -/
def endCommandLog (buf : List (List Char)) (message : Option Nat)
    (logs : Nat → Option (List Char)) : Nat → Option (List Char) :=
  match message with
  | none => logs
  | some mid =>
    if buf = [] then logs
    else fun k => if k = mid then some (endTruncate (joinWithNewlines buf)) else logs k

/-- Environment of the DM-forward branch of `on_message`: the outcome of
relay-channel resolution (`none` = cache miss and fetch failure; `some b`
with `b` recording whether the resolved object is a `TextChannel`) and, when
a send is attempted, its outcome (`some fwdId` on success, `none` on
`HTTPException`). -/
structure DMForwardEnv where
  resolvedIsText : Option Bool
  sendResult : Option Nat
deriving DecidableEq, Repr

/-- The DM-forward branch of `on_message` restricted to its effect on
`_relay_message_map`: only when the relay channel resolves to a text channel
and `relay_channel.send` succeeds is `_relay_message_map[fwd_msg.id] =
message.author.id` registered; every failure leaves the map unchanged. -/
def onDMForward (env : DMForwardEnv) (authorId : Nat)
    (relay : Nat → Option Nat) : Nat → Option Nat :=
  match env.resolvedIsText with
  | none => relay
  | some false => relay
  | some true =>
    match env.sendResult with
    | none => relay
    | some fwdId => fun k => if k = fwdId then some authorId else relay k

/-- The body computed in the moderator-reply branch of `on_message`:
`msg_body = message.content or "(no text)"`, then
`if len(msg_body) > 1900: msg_body = msg_body[:1900] + "…"`. -/
def modReplyBody (content : List Char) : List Char :=
  let body := if content = [] then String.toList "(no text)" else content
  if body.length > 1900 then body.take 1900 ++ ['…'] else body

/-- The embed description of a forwarded DM:
`message.content[:4000] or "(no text)"`. -/
def dmEmbedDescription (content : List Char) : List Char :=
  if content.take 4000 = [] then String.toList "(no text)" else content.take 4000

/-- The attachment re-upload loop of the moderator-reply branch:
`for a in message.attachments[:5]: try: files.append(await a.to_file())
except Exception: pass`.  Each element of the input models one attachment's
conversion outcome (`some fileId` on success, `none` when `to_file` raises). -/
def collectReplyFiles (attachments : List (Option Nat)) : List Nat :=
  (attachments.take 5).foldl
    (fun files a =>
      match a with
      | some fp => files ++ [fp]
      | none => files)
    []

/-- The `files=files or None` argument of `user.send` in the moderator-reply
branch. -/
def modReplyFilesArg (attachments : List (Option Nat)) : Option (List Nat) :=
  match collectReplyFiles attachments with
  | [] => none
  | files => some files

/-- Outcome of `guild.kick(member, ...)` for one candidate, matching the
handlers of `_run_inactivity_check`. -/
inductive KickOutcome where
  | success
  | forbidden
  | httpError
deriving DecidableEq, Repr

/-- Per-candidate environment in the kick loop: whether `member.send(dm_text)`
raises `HTTPException`, and the outcome of `guild.kick`. -/
structure CandidateEnv where
  dmFails : Bool
  kickOutcome : KickOutcome
deriving DecidableEq, Repr

/-- Observable actions emitted while processing kick candidates. -/
inductive Action where
  | dmAttempt (id : Nat)
  | kickAttempt (id : Nat)
  | kicked (id : Nat)
  | loggedForbidden (id : Nat)
  | loggedHttpError (id : Nat)
deriving DecidableEq, Repr

/-- The per-candidate body of the kick loop in `_run_inactivity_check`:
the inner `try: await member.send(dm_text) except HTTPException: pass`
swallows the notice failure, then `guild.kick` is attempted, with
`Forbidden` logged as a warning and `HTTPException` logged as an error. -/
def processCandidate (m : Nat) (env : CandidateEnv) : List Action :=
  let dmActions := [Action.dmAttempt m]
  let kickActions :=
    match env.kickOutcome with
    | KickOutcome.success => [Action.kickAttempt m, Action.kicked m]
    | KickOutcome.forbidden => [Action.kickAttempt m, Action.loggedForbidden m]
    | KickOutcome.httpError => [Action.kickAttempt m, Action.loggedHttpError m]
  dmActions ++ kickActions

/-- The `for member in to_kick:` loop of `_run_inactivity_check`. -/
def runKickLoop : List (Nat × CandidateEnv) → List Action
  | [] => []
  | (m, env) :: rest => processCandidate m env ++ runKickLoop rest

/-- The shared mutable state of the process: `_active_senders`,
`_relay_message_map` and `_logs_by_message`. -/
structure BotState where
  activeSenders : Finset Nat
  relayMap : Nat → Option Nat
  logsByMessage : Nat → Option (List Char)

/-- The operations of the program that touch (or could touch) the shared
state: guild-message handling, DM forwarding, startup history sampling,
log capture teardown, an enforcement tick, and a moderator-reply relay. -/
inductive Op where
  | guildMessage (authorId : Nat) (isBot : Bool)
  | dmMessage (env : DMForwardEnv) (authorId : Nat)
  | sampleMessage (authorId : Nat) (isBot : Bool)
  | endLog (buf : List (List Char)) (message : Option Nat)
  | inactivityTick (candidates : List (Nat × CandidateEnv))
  | modReplyRelay (content : List Char) (attachments : List (Option Nat))

/-- State effect of each operation.  `on_message` inserts the author into
`_active_senders` for non-bot guild messages only; `_populate_active_senders_initial`
inserts sampled non-bot authors; the DM branch updates `_relay_message_map`;
`_end_command_log` updates `_logs_by_message`; the enforcement tick and the
moderator-reply relay mutate none of the three structures. -/
def applyOp (op : Op) (s : BotState) : BotState :=
  match op with
  | Op.guildMessage authorId isBot =>
      if isBot then s
      else { s with activeSenders := insert authorId s.activeSenders }
  | Op.dmMessage env authorId =>
      { s with relayMap := onDMForward env authorId s.relayMap }
  | Op.sampleMessage authorId isBot =>
      if isBot then s
      else { s with activeSenders := insert authorId s.activeSenders }
  | Op.endLog buf message =>
      { s with logsByMessage := endCommandLog buf message s.logsByMessage }
  | Op.inactivityTick _ => s
  | Op.modReplyRelay _ _ => s

/-- Reachability through any sequence of operations. -/
def Reachable : BotState → BotState → Prop :=
  Relation.ReflTransGen (fun s t => ∃ op, applyOp op s = t)

/-! ### Helper lemmas -/

lemma isKickCandidate_iff (active : Finset Nat) (now days : Int) (m : Member) :
    isKickCandidate active now days m = true ↔
      m.bot = false ∧ m.id ∉ active ∧
        ∃ j, m.joined_at = some j ∧ days * 86400 ≤ now - j := by
  unfold isKickCandidate kickThreshold
  cases hb : m.bot with
  | true => simp [hb]
  | false =>
    by_cases hm : m.id ∈ active
    · simp [hm]
    · cases hj : m.joined_at with
      | none => simp [hm, hj]
      | some j =>
        simp [hb, hj, hm]
        omega

lemma endCommandLog_none (buf : List (List Char)) (logs : Nat → Option (List Char)) :
    endCommandLog buf none logs = logs := rfl

lemma endCommandLog_some (buf : List (List Char)) (mid : Nat)
    (logs : Nat → Option (List Char)) :
    endCommandLog buf (some mid) logs =
      if buf = [] then logs
      else fun k =>
        if k = mid then some (endTruncate (joinWithNewlines buf)) else logs k := rfl

lemma chunk_nil (size : Nat) : chunk size [] = [] := by
  simp [chunk]

lemma chunk_cons_eq (size : Nat) (hs : 0 < size) (l : List Char) (hl : l ≠ []) :
    chunk size l = l.take size :: chunk size (l.drop size) := by
  cases l with
  | nil => exact absurd rfl hl
  | cons c rest =>
    rw [chunk]
    obtain ⟨k, rfl⟩ : ∃ k, size = k + 1 := ⟨size - 1, by omega⟩
    simp [List.take_succ_cons, List.drop_succ_cons]

lemma chunk_flatten_aux (size n : Nat) :
    ∀ l : List Char, l.length ≤ n → (chunk size l).flatten = l := by
  induction n with
  | zero =>
    intro l hl
    have hnil : l = [] := List.length_eq_zero.mp (Nat.le_zero.mp hl)
    subst hnil
    simp [chunk_nil]
  | succ n ih =>
    intro l hl
    cases l with
    | nil => simp [chunk_nil]
    | cons c rest =>
      rw [chunk]
      rw [List.flatten_cons]
      rw [ih (rest.drop (size - 1)) (by simp only [List.length_drop]; simp at hl; omega)]
      simp [List.take_append_drop]

lemma chunk_flatten (size : Nat) (l : List Char) : (chunk size l).flatten = l :=
  chunk_flatten_aux size l.length l le_rfl

lemma chunk_le_aux (size n : Nat) (hs : 0 < size) :
    ∀ l : List Char, l.length ≤ n → ∀ c ∈ chunk size l, c.length ≤ size := by
  induction n with
  | zero =>
    intro l hl
    have hnil : l = [] := List.length_eq_zero.mp (Nat.le_zero.mp hl)
    subst hnil
    simp [chunk_nil]
  | succ n ih =>
    intro l hl c hc
    cases l with
    | nil => simp [chunk_nil] at hc
    | cons a rest =>
      rw [chunk] at hc
      rcases List.mem_cons.mp hc with h | h
      · subst h
        simp only [List.length_cons, List.length_take]
        omega
      · exact ih (rest.drop (size - 1))
          (by simp only [List.length_drop]; simp at hl; omega) c h

lemma chunk1900_length (k : Nat) :
    ∀ r : Nat, ∀ l : List Char, 0 < r → r ≤ 1900 → l.length = 1900 * k + r →
      (chunk 1900 l).length = k + 1 := by
  induction k with
  | zero =>
    intro r l hr hr2 hl
    have h0 : l ≠ [] := by
      intro e
      subst e
      simp at hl
      omega
    rw [chunk_cons_eq 1900 (by norm_num) l h0]
    have hd : (l.drop 1900).length = 0 := by
      simp only [List.length_drop]
      omega
    rw [List.length_eq_zero.mp hd, chunk_nil]
    rfl
  | succ k ih =>
    intro r l hr hr2 hl
    have h0 : l ≠ [] := by
      intro e
      subst e
      simp at hl
      omega
    rw [chunk_cons_eq 1900 (by norm_num) l h0]
    simp only [List.length_cons]
    rw [ih r (l.drop 1900) hr hr2 (by simp only [List.length_drop]; omega)]

/-! ### C1 and C2 -/

/-- C1 counterexample: a non-bot member with a recorded join time who joined
exactly the threshold ago (not strictly more) is nevertheless selected by the
code, because `_run_inactivity_check` compares with `<=`. -/
theorem kick_boundary_counterexample :
    isKickCandidate ∅ 604800 7 ⟨1, false, some 0⟩ = true ∧
    (⟨1, false, some 0⟩ : Member) ∈ toKick ∅ 604800 7 [⟨1, false, some 0⟩] ∧
    ¬ ((604800 : Int) - 0 > 7 * 86400) := by
  decide

/-- C1 (amended): on an enforcement tick, the candidate set contains a
roster member if and only if that member is not a bot, is not in the active
sender set, has a recorded join time, and joined at least (rather than
strictly more than) the threshold number of days before now. -/
theorem kick_candidate_amended (active : Finset Nat) (now days : Int)
    (members : List Member) (m : Member) :
    m ∈ toKick active now days members ↔
      m ∈ members ∧ m.bot = false ∧ m.id ∉ active ∧
        ∃ j, m.joined_at = some j ∧ days * 86400 ≤ now - j := by
  unfold toKick
  rw [List.mem_filter, isKickCandidate_iff]

/-- C2: a member whose identifier is in the active sender set is never
selected by the enforcement predicate, regardless of join date. -/
theorem active_sender_never_selected (active : Finset Nat) (now days : Int)
    (members : List Member) (m : Member) (h : m.id ∈ active) :
    isKickCandidate active now days m = false ∧
    m ∉ toKick active now days members := by
  have hc : isKickCandidate active now days m = false := by
    unfold isKickCandidate
    simp [h]
  refine ⟨hc, fun hmem => ?_⟩
  unfold toKick at hmem
  have := (List.mem_filter.mp hmem).2
  rw [hc] at this
  exact Bool.false_ne_true this

/-- C2 witness: a member who joined very long ago but is in the active
sender set is not selected. -/
theorem active_sender_never_selected_witness :
    isKickCandidate {42} 0 7 ⟨42, false, some (-1000000000)⟩ = false ∧
    (⟨42, false, some (-1000000000)⟩ : Member) ∉
      toKick {42} 0 7 [⟨42, false, some (-1000000000)⟩] :=
  active_sender_never_selected {42} 0 7 [⟨42, false, some (-1000000000)⟩]
    ⟨42, false, some (-1000000000)⟩ (by decide)

/-! ### C3 and C4 -/

/-- C3: when the newline-joined capture text exceeds 8000 characters,
`_end_command_log` stores exactly its trailing 8000 characters; the stored
text re-chunks (size 1900) into pieces of at most 1900 characters whose
concatenation reproduces it exactly; and a 9000-character joined text yields
a stored tail that re-chunks into 5 chunks. -/
theorem log_truncation_rechunk (buf : List (List Char)) (mid : Nat)
    (logs : Nat → Option (List Char)) :
    ((joinWithNewlines buf).length > 8000 →
      endCommandLog buf (some mid) logs mid =
        some ((joinWithNewlines buf).drop ((joinWithNewlines buf).length - 8000)) ∧
      (endTruncate (joinWithNewlines buf)).length = 8000) ∧
    ((chunk 1900 (endTruncate (joinWithNewlines buf))).flatten
        = endTruncate (joinWithNewlines buf) ∧
      ∀ c ∈ chunk 1900 (endTruncate (joinWithNewlines buf)), c.length ≤ 1900) ∧
    ((joinWithNewlines buf).length = 9000 →
      (chunk 1900 (endTruncate (joinWithNewlines buf))).length = 5) := by
  refine ⟨fun h => ?_,
    ⟨chunk_flatten 1900 _, chunk_le_aux 1900 _ (by norm_num) _ le_rfl⟩,
    fun h => ?_⟩
  · have hbuf : buf ≠ [] := by
      intro e
      subst e
      simp [joinWithNewlines] at h
    have hstore : endTruncate (joinWithNewlines buf) =
        (joinWithNewlines buf).drop ((joinWithNewlines buf).length - 8000) := by
      unfold endTruncate
      rw [if_pos h]
    refine ⟨?_, ?_⟩
    · rw [endCommandLog_some, if_neg hbuf]
      simp [hstore]
    · rw [hstore]
      simp only [List.length_drop]
      omega
  · have h8 : (endTruncate (joinWithNewlines buf)).length = 1900 * 4 + 400 := by
      unfold endTruncate
      rw [if_pos (by omega)]
      simp only [List.length_drop]
      omega
    exact chunk1900_length 4 400 _ (by norm_num) (by norm_num) h8

/-- C3 witness: a single captured 9000-character line is stored as its
8000-character tail, which re-chunks into 5 chunks. -/
theorem log_truncation_rechunk_witness :
    (endCommandLog [List.replicate 9000 'a'] (some 3) (fun _ => none) 3 =
        some ((joinWithNewlines [List.replicate 9000 'a']).drop
          ((joinWithNewlines [List.replicate 9000 'a']).length - 8000)) ∧
      (endTruncate (joinWithNewlines [List.replicate 9000 'a'])).length = 8000) ∧
    (chunk 1900 (endTruncate (joinWithNewlines [List.replicate 9000 'a']))).length = 5 :=
  ⟨(log_truncation_rechunk [List.replicate 9000 'a'] 3 (fun _ => none)).1
      (by simp only [joinWithNewlines, List.length_replicate]; norm_num),
   (log_truncation_rechunk [List.replicate 9000 'a'] 3 (fun _ => none)).2.2
      (by simp only [joinWithNewlines, List.length_replicate])⟩

/-- C4 counterexample: a response message id was produced (id 5), yet with an
empty captured buffer `_end_command_log` stores nothing, because of the
`if message and buf:` truthiness test — the claim would require the (empty)
joined text to be stored under id 5. -/
theorem end_log_empty_buffer_counterexample :
    endCommandLog [] (some 5) (fun _ => none) 5 ≠
      some (endTruncate (joinWithNewlines [])) ∧
    endCommandLog [] (some 5) (fun _ => none) = (fun _ => none) := by
  constructor
  · rw [endCommandLog_some, if_pos rfl]
    simp
  · rfl

/-- C4 (amended): if a response identifier was produced and at least one log
line was captured, the joined, tail-truncated text is stored under that
identifier and every other key is unchanged; if no response identifier was
produced, or the captured buffer is empty, the map is unchanged. -/
theorem end_log_amended (buf : List (List Char)) (message : Option Nat)
    (logs : Nat → Option (List Char)) :
    (message = none → endCommandLog buf message logs = logs) ∧
    (buf = [] → endCommandLog buf message logs = logs) ∧
    (∀ mid, message = some mid → buf ≠ [] →
      endCommandLog buf message logs mid =
          some (endTruncate (joinWithNewlines buf)) ∧
      ∀ k, k ≠ mid → endCommandLog buf message logs k = logs k) := by
  refine ⟨fun hm => ?_, fun hb => ?_, fun mid hm hb => ?_⟩
  · subst hm
    rfl
  · subst hb
    cases message with
    | none => rfl
    | some mid => rw [endCommandLog_some, if_pos rfl]
  · subst hm
    rw [endCommandLog_some, if_neg hb]
    exact ⟨by simp, fun k hk => by simp [hk]⟩

/-- C4 witness: storing with a non-empty buffer, and the two unchanged
cases. -/
theorem end_log_amended_witness :
    endCommandLog [['a']] (some 3) (fun _ => none) 3 =
        some (endTruncate (joinWithNewlines [['a']])) ∧
    endCommandLog [] (some 3) (fun _ => none) = (fun _ => none) ∧
    endCommandLog [['a']] none (fun _ => none) = (fun _ => none) :=
  ⟨((end_log_amended [['a']] (some 3) (fun _ => none)).2.2 3 rfl (by simp)).1,
   (end_log_amended [] (some 3) (fun _ => none)).2.1 rfl,
   (end_log_amended [['a']] none (fun _ => none)).1 rfl⟩

/-! ### C5, C6, C9 -/

/-- C5: if relay-channel resolution fails (cache miss and fetch failure, or
the resolved object is not a text channel), the DM-forward branch leaves the
relay map unchanged; and any key whose mapping changed must be the id of a
successfully sent forward message, now mapped to the author. -/
theorem dm_forward_mapping_safety (env : DMForwardEnv) (authorId : Nat)
    (relay : Nat → Option Nat) :
    (env.resolvedIsText = none ∨ env.resolvedIsText = some false →
      onDMForward env authorId relay = relay) ∧
    (∀ k, onDMForward env authorId relay k ≠ relay k →
      env.resolvedIsText = some true ∧ env.sendResult = some k ∧
      onDMForward env authorId relay k = some authorId) := by
  obtain ⟨res, send⟩ := env
  constructor
  · rintro (h | h) <;> (cases h; rfl)
  · intro k hk
    cases res with
    | none => exact absurd rfl hk
    | some b =>
      cases b with
      | false => exact absurd rfl hk
      | true =>
        cases send with
        | none => exact absurd rfl hk
        | some fwd =>
          by_cases hkf : k = fwd
          · subst hkf
            refine ⟨rfl, rfl, ?_⟩
            show (if k = k then some authorId else relay k) = some authorId
            rw [if_pos rfl]
          · exfalso
            apply hk
            show (if k = fwd then some authorId else relay k) = relay k
            rw [if_neg hkf]

/-- C5 witness: a failed resolution changes nothing, and a successful send
registers exactly the forwarded id. -/
theorem dm_forward_mapping_safety_witness :
    onDMForward ⟨none, none⟩ 7 (fun _ => none) = (fun _ => none) ∧
    ((DMForwardEnv.mk (some true) (some 9)).resolvedIsText = some true ∧
      (DMForwardEnv.mk (some true) (some 9)).sendResult = some 9 ∧
      onDMForward ⟨some true, some 9⟩ 7 (fun _ => none) 9 = some 7) :=
  ⟨(dm_forward_mapping_safety ⟨none, none⟩ 7 (fun _ => none)).1 (Or.inl rfl),
   (dm_forward_mapping_safety ⟨some true, some 9⟩ 7 (fun _ => none)).2 9
     (by decide)⟩

/-- C6 counterexample: an empty moderator content has length at most 1900,
yet the delivered body is the placeholder "(no text)", not the content,
because of `message.content or "(no text)"`. -/
theorem mod_reply_body_counterexample :
    ([] : List Char).length ≤ 1900 ∧
    modReplyBody [] = String.toList "(no text)" ∧
    modReplyBody [] ≠ ([] : List Char) := by
  refine ⟨by norm_num, rfl, by decide⟩

/-- C6 (amended): the delivered body equals the moderator content when the
content is non-empty and at most 1900 characters; it is the placeholder
"(no text)" when the content is empty; and it is the first 1900 characters
followed by an ellipsis exactly when the content exceeds 1900 characters. -/
theorem mod_reply_body_amended (content : List Char) :
    (content ≠ [] → content.length ≤ 1900 → modReplyBody content = content) ∧
    (content = [] → modReplyBody content = String.toList "(no text)") ∧
    (content.length > 1900 →
      modReplyBody content = content.take 1900 ++ ['…']) ∧
    (modReplyBody content = content.take 1900 ++ ['…'] →
      content.length > 1900) := by
  refine ⟨fun hne hlen => ?_, fun he => ?_, fun hl => ?_, fun he => ?_⟩
  · simp only [modReplyBody]
    rw [if_neg hne, if_neg (by omega : ¬ content.length > 1900)]
  · subst he
    rfl
  · have hne : content ≠ [] := by
      intro e
      subst e
      simp at hl
    simp only [modReplyBody]
    rw [if_neg hne, if_pos hl]
  · by_contra hle
    push_neg at hle
    by_cases hc : content = []
    · subst hc
      exact absurd he (by decide)
    · have hmb : modReplyBody content = content := by
        simp only [modReplyBody]
        rw [if_neg hc, if_neg (by omega : ¬ content.length > 1900)]
      rw [hmb] at he
      have hlen := congrArg List.length he
      simp only [List.length_append, List.length_take, List.length_cons,
        List.length_nil] at hlen
      omega

/-- C6 witness: identity on a short non-empty content, placeholder on empty
content, truncation with marker on a 2000-character content. -/
theorem mod_reply_body_amended_witness :
    modReplyBody ['h'] = ['h'] ∧
    modReplyBody [] = String.toList "(no text)" ∧
    modReplyBody (List.replicate 2000 'x') =
      (List.replicate 2000 'x').take 1900 ++ ['…'] ∧
    (List.replicate 2000 'x').length > 1900 :=
  ⟨(mod_reply_body_amended ['h']).1 (by simp) (by simp),
   (mod_reply_body_amended []).2.1 rfl,
   (mod_reply_body_amended (List.replicate 2000 'x')).2.2.1
     (by simp only [List.length_replicate]; norm_num),
   (mod_reply_body_amended (List.replicate 2000 'x')).2.2.2
     ((mod_reply_body_amended (List.replicate 2000 'x')).2.2.1
       (by simp only [List.length_replicate]; norm_num))⟩

/-- C9: the forwarded-DM embed description is the first 4000 characters of
the content when the content is non-empty, and "(no text)" when empty. -/
theorem dm_embed_description_spec (content : List Char) :
    (content ≠ [] → dmEmbedDescription content = content.take 4000) ∧
    (content = [] → dmEmbedDescription content = String.toList "(no text)") := by
  constructor
  · intro h
    unfold dmEmbedDescription
    rw [if_neg (by simp [List.take_eq_nil_iff, h])]
  · intro h
    subst h
    rfl

/-- C9 witness: a one-character content and the empty content. -/
theorem dm_embed_description_spec_witness :
    dmEmbedDescription ['h'] = (['h'] : List Char).take 4000 ∧
    dmEmbedDescription [] = String.toList "(no text)" :=
  ⟨(dm_embed_description_spec ['h']).1 (by simp),
   (dm_embed_description_spec []).2 rfl⟩

/-! ### C7, C8, C10 -/

lemma runKickLoop_cons (m : Nat) (env : CandidateEnv)
    (rest : List (Nat × CandidateEnv)) :
    runKickLoop ((m, env) :: rest) = processCandidate m env ++ runKickLoop rest := rfl

lemma runKickLoop_append (l1 l2 : List (Nat × CandidateEnv)) :
    runKickLoop (l1 ++ l2) = runKickLoop l1 ++ runKickLoop l2 := by
  induction l1 with
  | nil => rfl
  | cons p rest ih =>
    obtain ⟨m, env⟩ := p
    rw [List.cons_append, runKickLoop_cons, runKickLoop_cons, ih,
      List.append_assoc]

/-- C7: per-candidate processing in a tick emits the private-notice attempt
before the removal attempt; a notice failure is ignored (the emitted actions
do not depend on it); a permission failure on removal is logged and that
candidate is not kicked; and the candidate's processing is independent of
the rest of the tick. -/
theorem kick_loop_containment (pre post : List (Nat × CandidateEnv)) (m : Nat)
    (env : CandidateEnv) :
    runKickLoop (pre ++ (m, env) :: post)
        = runKickLoop pre ++ processCandidate m env ++ runKickLoop post ∧
    (∃ rest, processCandidate m env
        = Action.dmAttempt m :: Action.kickAttempt m :: rest) ∧
    (∀ b : Bool, processCandidate m ⟨b, env.kickOutcome⟩ = processCandidate m env) ∧
    (env.kickOutcome = KickOutcome.forbidden →
      Action.loggedForbidden m ∈ processCandidate m env ∧
      Action.kicked m ∉ processCandidate m env) := by
  obtain ⟨b, o⟩ := env
  refine ⟨?_, ?_, ?_, fun hf => ?_⟩
  · rw [runKickLoop_append, runKickLoop_cons, List.append_assoc]
  · cases o <;> exact ⟨_, rfl⟩
  · intro b2
    rfl
  · cases hf
    constructor
    · simp [processCandidate]
    · simp [processCandidate]

/-- C7 witness: a candidate whose notice fails and whose removal is
forbidden is logged and skipped, while the tick still processes the next
candidate. -/
theorem kick_loop_containment_witness :
    runKickLoop [(1, ⟨true, KickOutcome.forbidden⟩), (2, ⟨false, KickOutcome.success⟩)]
        = runKickLoop [] ++ processCandidate 1 ⟨true, KickOutcome.forbidden⟩ ++
          runKickLoop [(2, ⟨false, KickOutcome.success⟩)] ∧
    Action.loggedForbidden 1 ∈ processCandidate 1 ⟨true, KickOutcome.forbidden⟩ ∧
    Action.kicked 1 ∉ processCandidate 1 ⟨true, KickOutcome.forbidden⟩ :=
  ⟨(kick_loop_containment [] [(2, ⟨false, KickOutcome.success⟩)] 1
      ⟨true, KickOutcome.forbidden⟩).1,
   ((kick_loop_containment [] [(2, ⟨false, KickOutcome.success⟩)] 1
      ⟨true, KickOutcome.forbidden⟩).2.2.2 rfl).1,
   ((kick_loop_containment [] [(2, ⟨false, KickOutcome.success⟩)] 1
      ⟨true, KickOutcome.forbidden⟩).2.2.2 rfl).2⟩

lemma applyOp_active_mono (op : Op) (s : BotState) :
    s.activeSenders ⊆ (applyOp op s).activeSenders := by
  cases op with
  | guildMessage a isBot =>
    cases isBot with
    | false => exact Finset.subset_insert a s.activeSenders
    | true => exact subset_rfl
  | sampleMessage a isBot =>
    cases isBot with
    | false => exact Finset.subset_insert a s.activeSenders
    | true => exact subset_rfl
  | dmMessage env authorId => exact subset_rfl
  | endLog buf message => exact subset_rfl
  | inactivityTick candidates => exact subset_rfl
  | modReplyRelay content attachments => exact subset_rfl

/-- C8: the active sender set is append-only — along any sequence of
program operations, the set in the start state is a subset of the set in
every reachable state. -/
theorem active_senders_append_only (s t : BotState) (h : Reachable s t) :
    s.activeSenders ⊆ t.activeSenders := by
  induction h with
  | refl => exact subset_rfl
  | tail _ hbc ih =>
    obtain ⟨op, rfl⟩ := hbc
    exact ih.trans (applyOp_active_mono op _)

/-- C8 witness: one guild message from user 1 grows the set. -/
theorem active_senders_append_only_witness :
    (BotState.mk ∅ (fun _ => none) (fun _ => none)).activeSenders ⊆
      (applyOp (Op.guildMessage 1 false)
        (BotState.mk ∅ (fun _ => none) (fun _ => none))).activeSenders :=
  active_senders_append_only _ _
    (Relation.ReflTransGen.single ⟨Op.guildMessage 1 false, rfl⟩)

lemma collect_foldl (l : List (Option Nat)) :
    ∀ acc : List Nat,
      l.foldl
        (fun files a =>
          match a with
          | some fp => files ++ [fp]
          | none => files)
        acc = acc ++ l.filterMap id := by
  induction l with
  | nil =>
    intro acc
    simp
  | cons a rest ih =>
    intro acc
    cases a with
    | none => simp [List.foldl_cons, ih]
    | some fp => simp [List.foldl_cons, ih]

/-- C10: the moderator-reply delivery re-uploads at most the first 5
attachments; the delivered files are exactly the successfully converted
attachments among the first 5, in order (each conversion failure skips only
that attachment); and when every conversion fails the delivery proceeds with
no files. -/
theorem mod_reply_attachment_handling (attachments : List (Option Nat)) :
    collectReplyFiles attachments = (attachments.take 5).filterMap id ∧
    (collectReplyFiles attachments).length ≤ 5 ∧
    (collectReplyFiles attachments = [] → modReplyFilesArg attachments = none) ∧
    (collectReplyFiles attachments ≠ [] →
      modReplyFilesArg attachments = some (collectReplyFiles attachments)) := by
  have hc : collectReplyFiles attachments = (attachments.take 5).filterMap id := by
    unfold collectReplyFiles
    rw [collect_foldl]
    simp
  refine ⟨hc, ?_, fun he => ?_, fun hne => ?_⟩
  · rw [hc]
    calc ((attachments.take 5).filterMap id).length
        ≤ (attachments.take 5).length := List.length_filterMap_le id _
      _ ≤ 5 := List.length_take_le 5 attachments
  · unfold modReplyFilesArg
    rw [he]
  · unfold modReplyFilesArg
    cases hcc : collectReplyFiles attachments with
    | nil => exact absurd hcc hne
    | cons x xs => rfl

/-- C10 witness: with failures interleaved among seven attachments, only the
successful conversions among the first five are delivered; with only
failures, the delivery carries no files. -/
theorem mod_reply_attachment_handling_witness :
    modReplyFilesArg [none, some 1, none, some 2, none, none, some 3] =
      some (collectReplyFiles [none, some 1, none, some 2, none, none, some 3]) ∧
    modReplyFilesArg [none, none] = none :=
  ⟨(mod_reply_attachment_handling [none, some 1, none, some 2, none, none, some 3]).2.2.2
      (by decide),
   (mod_reply_attachment_handling [none, none]).2.2.1 (by decide)⟩

end Picl
